import Mathlib

/-!
# Single-shot TCP server (`server.c`)

A shallow embedding of `main` from `server.c`.  The program is a straight line of
system calls with an early `exit(1)` after each checked call, so it is modelled as a
function from the outcomes delivered by the operating system (`Env`) to the
observable run (`Run`): the ordered trace of calls and output, the final contents
of the 256-byte stack buffer, and how the process ended.
-/

namespace Server

/-- One `char` of the C program. -/
abbrev Byte := UInt8

/-- The bytes of an ASCII text, one per character. -/
def asciiBytes (s : String) : List Byte :=
  s.toList.map (fun c => c.toNat.toUInt8)

/-- The port of `#define PORT 8000`, which `main` passes through `htons` to `bind`. -/
def PORT : Nat := 8000

/-- The backlog passed to `listen`. -/
def BACKLOG : Nat := 5

/-- Size of `char buffer[256]`. -/
def BUFSIZE : Nat := 256

/-- Length argument of `recv(new_sockfd, buffer, 255, 0)`. -/
def RECVLEN : Nat := 255

/-- Length argument of `send(new_sockfd, "I got your message", 18, 0)`. -/
def SENDLEN : Nat := 18

/-- The text between the quotes of the literal passed to `send`. -/
def replyText : String := "I got your message"

/-- The array a C string literal denotes: its characters followed by the NUL terminator. -/
def cLiteral (s : String) : List Byte := asciiBytes s ++ [0]

/-- The object `"I got your message"` as laid out in memory. -/
def replyLiteral : List Byte := cLiteral replyText

/-- The format text printed before the `%s` conversion of the `printf` call. -/
def printfPrefix : List Byte := asciiBytes "Message from client: "

/-- What the operating system delivers to the run.  Every call is made at most once,
so one value per call suffices.  `incoming` describes the single `recv`: `none` when
the call fails, `some M` when the byte sequence `M` is available on the connection. -/
structure Env where
  garbage : Fin 256 → Byte
  socketRet : Int
  bindRet : Int
  listenRet : Int
  acceptRet : Int
  incoming : Option (List Byte)
  sendRet : Int

/-- Observable actions of the program, in the order of the source. -/
inductive Event where
  | socket (ret : Int)
  | bind (fd : Int) (port : Nat) (ret : Int)
  | listen (fd : Int) (backlog : Nat) (ret : Int)
  | accept (fd : Int) (ret : Int)
  | recv (fd : Int) (len : Nat) (ret : Int) (stored : List Byte)
  | printf (out : List Byte)
  | perror (msg : String)
  | send (fd : Int) (payload : List Byte) (ret : Int)
  | close (fd : Int)
  deriving DecidableEq, Repr

/-- How the process ended: `exit(code)` / `return code`, or an out-of-bounds read. -/
inductive Outcome where
  | exited (code : Int)
  | undefinedBehaviour
  deriving DecidableEq, Repr

/-- The result of running `main`. -/
structure Run where
  trace : List Event
  buffer : List Byte
  outcome : Outcome

/-- The call `memset(buf, c, n)`: the first `n` bytes become `c`, the rest is kept. -/
def memset (buf : List Byte) (c : Byte) (n : Nat) : List Byte :=
  List.replicate n c ++ buf.drop n

/-- The kernel side of `recv(fd, buf, len, 0)`: on failure it returns `-1` and leaves
`buf` alone; otherwise it copies the first `min |M| len` available bytes to the start
of `buf` and returns their number. -/
def recv (incoming : Option (List Byte)) (buf : List Byte) (len : Nat) :
    Int × List Byte × List Byte :=
  match incoming with
  | none => (-1, [], buf)
  | some M =>
    let stored := M.take len
    ((stored.length : Int), stored, stored ++ buf.drop stored.length)

/-- What `%s` reads from a `char` array: the bytes before the first NUL.  When the
array holds no NUL the read runs past its end, which is `none`. -/
def cString (buf : List Byte) : Option (List Byte) :=
  if (0 : Byte) ∈ buf then some (buf.takeWhile (fun b => b ≠ 0)) else none

/-- The bytes handed to `send(fd, p, len, 0)`: `len` bytes starting at `p`. -/
def sendPayload (p : List Byte) (len : Nat) : List Byte := p.take len

/-- The function `main` of `server.c`. -/
def main (env : Env) : Run :=
  let buffer := List.ofFn env.garbage
  let sockfd := env.socketRet
  let t := [Event.socket sockfd]
  if sockfd < 0 then
    ⟨t ++ [Event.perror "ERROR opening socket"], buffer, Outcome.exited 1⟩
  else
  let t := t ++ [Event.bind sockfd PORT env.bindRet]
  if env.bindRet < 0 then
    ⟨t ++ [Event.perror "ERROR on binding"], buffer, Outcome.exited 1⟩
  else
  let t := t ++ [Event.listen sockfd BACKLOG env.listenRet]
  let new_sockfd := env.acceptRet
  let t := t ++ [Event.accept sockfd new_sockfd]
  if new_sockfd < 0 then
    ⟨t ++ [Event.perror "ERROR on accept"], buffer, Outcome.exited 1⟩
  else
  let buffer := memset buffer 0 BUFSIZE
  let r := recv env.incoming buffer RECVLEN
  let n := r.1
  let buffer := r.2.2
  let t := t ++ [Event.recv new_sockfd RECVLEN n r.2.1]
  if n < 0 then
    ⟨t ++ [Event.perror "ERROR reading from socket"], buffer, Outcome.exited 1⟩
  else
  match cString buffer with
  | none => ⟨t, buffer, Outcome.undefinedBehaviour⟩
  | some msg =>
  let t := t ++ [Event.printf (printfPrefix ++ msg ++ asciiBytes "\n")]
  let n := env.sendRet
  let t := t ++ [Event.send new_sockfd (sendPayload replyLiteral SENDLEN) n]
  if n < 0 then
    ⟨t ++ [Event.perror "ERROR writing to socket"], buffer, Outcome.exited 1⟩
  else
  let t := t ++ [Event.close new_sockfd]
  let t := t ++ [Event.close sockfd]
  ⟨t, buffer, Outcome.exited 0⟩

/-- Everything written to standard output, in order. -/
def stdout (t : List Event) : List Byte :=
  t.flatMap (fun e => match e with
    | Event.printf out => out
    | _ => [])

/-- The bytes put on the wire by the `send` calls of a trace: a call that returns
`k ≥ 0` has transmitted the first `k` bytes of its payload. -/
def transmitted (t : List Event) : List Byte :=
  t.flatMap (fun e => match e with
    | Event.send _ payload ret => if ret < 0 then [] else payload.take ret.toNat
    | _ => [])

def isAccept : Event → Bool
  | Event.accept _ _ => true
  | _ => false

def isRecv : Event → Bool
  | Event.recv _ _ _ _ => true
  | _ => false

def isSend : Event → Bool
  | Event.send _ _ _ => true
  | _ => false

def isClose : Event → Bool
  | Event.close _ => true
  | _ => false

def isPrintf : Event → Bool
  | Event.printf _ => true
  | _ => false

def isPerror : Event → Bool
  | Event.perror _ => true
  | _ => false

/-- Calls that operate on a socket. -/
def isSocketOp : Event → Bool
  | Event.printf _ => false
  | Event.perror _ => false
  | _ => true

/-- A call whose result the program inspects and that returned a negative value. -/
def isFailedCheck : Event → Bool
  | Event.socket ret => decide (ret < 0)
  | Event.bind _ _ ret => decide (ret < 0)
  | Event.accept _ ret => decide (ret < 0)
  | Event.recv _ _ ret _ => decide (ret < 0)
  | Event.send _ _ ret => decide (ret < 0)
  | _ => false

/-- The trace of a run in which `send` is reached, without the events after `send`. -/
def traceToSend (env : Env) (M : List Byte) : List Event :=
  [Event.socket env.socketRet, Event.bind env.socketRet PORT env.bindRet,
    Event.listen env.socketRet BACKLOG env.listenRet,
    Event.accept env.socketRet env.acceptRet,
    Event.recv env.acceptRet RECVLEN ((M.take RECVLEN).length : Int) (M.take RECVLEN),
    Event.printf (printfPrefix ++ (M.take RECVLEN).takeWhile (fun b => b ≠ 0)
      ++ asciiBytes "\n"),
    Event.send env.acceptRet (sendPayload replyLiteral SENDLEN) env.sendRet]

/-- The buffer once `recv` has stored the available bytes `M`. -/
def bufferOf (M : List Byte) : List Byte :=
  M.take RECVLEN ++ List.replicate (BUFSIZE - (M.take RECVLEN).length) 0

/-- An environment in which every call succeeds but `send` accepts only 5 of the 18
bytes. -/
def partialSendEnv : Env :=
  { garbage := fun _ => 0xAA, socketRet := 3, bindRet := 0, listenRet := 0,
    acceptRet := 4, incoming := some (asciiBytes "hello"), sendRet := 5 }

/-- An environment in which `bind` fails, as when the port is already in use. -/
def bindFailEnv : Env :=
  { garbage := fun _ => 0xAA, socketRet := 3, bindRet := -1, listenRet := 0,
    acceptRet := 4, incoming := some (asciiBytes "hello"), sendRet := 18 }

/-- The return value of the `recv` call as computed by the kernel model. -/
def recvRet (env : Env) : Int :=
  (recv env.incoming (memset (List.ofFn env.garbage) 0 BUFSIZE) RECVLEN).1

/-- An environment in which every call succeeds, `send` accepts all 18 bytes and the
client sent `M`. -/
def okEnv (M : List Byte) : Env :=
  { garbage := fun _ => 0xAA, socketRet := 3, bindRet := 0, listenRet := 0,
    acceptRet := 4, incoming := some M, sendRet := 18 }

end Server

namespace Server

/-! ## Facts about the buffer -/

theorem memset_all (buf : List Byte) (c : Byte) (n : Nat) (h : buf.length ≤ n) :
    memset buf c n = List.replicate n c := by
  unfold memset
  rw [List.drop_eq_nil_of_le h, List.append_nil]

theorem memset_garbage (g : Fin 256 → Byte) :
    memset (List.ofFn g) 0 BUFSIZE = List.replicate BUFSIZE 0 := by
  apply memset_all
  rw [List.length_ofFn]
  exact Nat.le_refl _

theorem takeWhile_append_zeros (d : List Byte) (k : Nat) :
    (d ++ List.replicate (k + 1) (0 : Byte)).takeWhile (fun b => b ≠ 0)
      = d.takeWhile (fun b => b ≠ 0) := by
  induction d with
  | nil => simp [List.replicate_succ]
  | cons a d ih =>
    by_cases h : a = 0
    · simp [List.takeWhile_cons, h]
    · simp only [List.cons_append, List.takeWhile_cons, ih]

/-- The buffer after `memset` and a successful `recv` of the available bytes `M`. -/
theorem recv_some (g : Fin 256 → Byte) (M : List Byte) :
    recv (some M) (memset (List.ofFn g) 0 BUFSIZE) RECVLEN
      = (((M.take RECVLEN).length : Int), M.take RECVLEN,
          M.take RECVLEN ++ List.replicate (BUFSIZE - (M.take RECVLEN).length) 0) := by
  rw [memset_garbage]
  unfold recv
  simp only [List.drop_replicate]

theorem take_length_le (M : List Byte) : (M.take RECVLEN).length ≤ RECVLEN := by
  rw [List.length_take]
  exact Nat.min_le_left _ _

theorem cString_after_recv (M : List Byte) :
    cString (M.take RECVLEN ++ List.replicate (BUFSIZE - (M.take RECVLEN).length) 0)
      = some ((M.take RECVLEN).takeWhile (fun b => b ≠ 0)) := by
  have hle := take_length_le M
  obtain ⟨k, hk⟩ : ∃ k, BUFSIZE - (M.take RECVLEN).length = k + 1 :=
    ⟨254 + (RECVLEN - (M.take RECVLEN).length) - 254, by
      have : BUFSIZE = RECVLEN + 1 := rfl
      omega⟩
  rw [hk]
  unfold cString
  rw [if_pos (by simp [List.replicate_succ]), takeWhile_append_zeros]

/-- Shape of the run once `socket`, `bind` and `accept` have succeeded and `recv`
delivers `M`. -/
theorem main_recv_ok (env : Env) (M : List Byte)
    (hs : 0 ≤ env.socketRet) (hb : 0 ≤ env.bindRet) (ha : 0 ≤ env.acceptRet)
    (hM : env.incoming = some M) :
    main env =
      (let buffer := M.take RECVLEN ++ List.replicate (BUFSIZE - (M.take RECVLEN).length) 0
       let t := [Event.socket env.socketRet, Event.bind env.socketRet PORT env.bindRet,
          Event.listen env.socketRet BACKLOG env.listenRet,
          Event.accept env.socketRet env.acceptRet,
          Event.recv env.acceptRet RECVLEN ((M.take RECVLEN).length : Int) (M.take RECVLEN),
          Event.printf (printfPrefix ++ (M.take RECVLEN).takeWhile (fun b => b ≠ 0)
            ++ asciiBytes "\n"),
          Event.send env.acceptRet (sendPayload replyLiteral SENDLEN) env.sendRet]
       if env.sendRet < 0 then
         ⟨t ++ [Event.perror "ERROR writing to socket"], buffer, Outcome.exited 1⟩
       else
         ⟨t ++ [Event.close env.acceptRet, Event.close env.socketRet], buffer,
           Outcome.exited 0⟩) := by
  unfold main
  simp only [hM, recv_some, cString_after_recv]
  have h1 : ¬ env.socketRet < 0 := by omega
  have h2 : ¬ env.bindRet < 0 := by omega
  have h3 : ¬ env.acceptRet < 0 := by omega
  have h4 : ¬ (((M.take RECVLEN).length : Int) < 0) := by omega
  simp only [h1, h2, h3, h4, if_false]
  split_ifs <;> simp only [List.cons_append, List.nil_append, List.append_assoc]

/-- Shape of the run when `recv` fails after the earlier calls succeeded. -/
theorem main_recv_fail (env : Env)
    (hs : 0 ≤ env.socketRet) (hb : 0 ≤ env.bindRet) (ha : 0 ≤ env.acceptRet)
    (hM : env.incoming = none) :
    main env =
      ⟨[Event.socket env.socketRet, Event.bind env.socketRet PORT env.bindRet,
          Event.listen env.socketRet BACKLOG env.listenRet,
          Event.accept env.socketRet env.acceptRet,
          Event.recv env.acceptRet RECVLEN (-1) [],
          Event.perror "ERROR reading from socket"],
        List.replicate BUFSIZE 0, Outcome.exited 1⟩ := by
  unfold main
  have h1 : ¬ env.socketRet < 0 := by omega
  have h2 : ¬ env.bindRet < 0 := by omega
  have h3 : ¬ env.acceptRet < 0 := by omega
  have h4 : ((-1 : Int) < 0) := by omega
  simp only [hM, recv, memset_garbage, h1, h2, h3, h4, if_false, if_true,
    List.cons_append, List.nil_append]

theorem main_socket_fail (env : Env) (hs : env.socketRet < 0) :
    main env = ⟨[Event.socket env.socketRet, Event.perror "ERROR opening socket"],
      List.ofFn env.garbage, Outcome.exited 1⟩ := by
  unfold main
  simp only [hs, if_true, List.cons_append, List.nil_append]

theorem main_bind_fail (env : Env) (hs : 0 ≤ env.socketRet) (hb : env.bindRet < 0) :
    main env = ⟨[Event.socket env.socketRet, Event.bind env.socketRet PORT env.bindRet,
        Event.perror "ERROR on binding"],
      List.ofFn env.garbage, Outcome.exited 1⟩ := by
  unfold main
  have h1 : ¬ env.socketRet < 0 := by omega
  simp only [h1, hb, if_false, if_true, List.cons_append, List.nil_append]

theorem main_accept_fail (env : Env) (hs : 0 ≤ env.socketRet) (hb : 0 ≤ env.bindRet)
    (ha : env.acceptRet < 0) :
    main env = ⟨[Event.socket env.socketRet, Event.bind env.socketRet PORT env.bindRet,
        Event.listen env.socketRet BACKLOG env.listenRet,
        Event.accept env.socketRet env.acceptRet,
        Event.perror "ERROR on accept"],
      List.ofFn env.garbage, Outcome.exited 1⟩ := by
  unfold main
  have h1 : ¬ env.socketRet < 0 := by omega
  have h2 : ¬ env.bindRet < 0 := by omega
  simp only [h1, h2, ha, if_false, if_true, List.cons_append, List.nil_append]

theorem recvRet_none (env : Env) (hM : env.incoming = none) : recvRet env = -1 := by
  simp only [recvRet, hM, recv]

theorem recvRet_some (env : Env) (M : List Byte) (hM : env.incoming = some M) :
    recvRet env = ((M.take RECVLEN).length : Int) := by
  simp only [recvRet, hM, recv_some]

theorem recvRet_nonneg_iff (env : Env) : 0 ≤ recvRet env ↔ env.incoming.isSome = true := by
  cases h : env.incoming with
  | none => rw [recvRet_none env h]; simp
  | some M => rw [recvRet_some env M h]; simp

/-- The way the process ends, as a function of the values returned to it. -/
theorem main_outcome (env : Env) :
    (main env).outcome =
      if env.socketRet < 0 then Outcome.exited 1
      else if env.bindRet < 0 then Outcome.exited 1
      else if env.acceptRet < 0 then Outcome.exited 1
      else if recvRet env < 0 then Outcome.exited 1
      else if env.sendRet < 0 then Outcome.exited 1
      else Outcome.exited 0 := by
  by_cases hs : env.socketRet < 0
  · rw [main_socket_fail env hs, if_pos hs]
  rw [if_neg hs]
  by_cases hb : env.bindRet < 0
  · rw [main_bind_fail env (by omega) hb, if_pos hb]
  rw [if_neg hb]
  by_cases ha : env.acceptRet < 0
  · rw [main_accept_fail env (by omega) (by omega) ha, if_pos ha]
  rw [if_neg ha]
  cases hM : env.incoming with
  | none =>
    rw [main_recv_fail env (by omega) (by omega) (by omega) hM, recvRet_none env hM]
    rfl
  | some M =>
    rw [main_recv_ok env M (by omega) (by omega) (by omega) hM, recvRet_some env M hM]
    have h4 : ¬ (((M.take RECVLEN).length : Int) < 0) := by omega
    rw [if_neg h4]
    by_cases hw : env.sendRet < 0
    · simp only [hw, if_true]
    · simp only [hw, if_false]

theorem main_send_fail (env : Env) (M : List Byte)
    (hs : 0 ≤ env.socketRet) (hb : 0 ≤ env.bindRet) (ha : 0 ≤ env.acceptRet)
    (hM : env.incoming = some M) (hw : env.sendRet < 0) :
    main env = ⟨traceToSend env M ++ [Event.perror "ERROR writing to socket"],
      bufferOf M, Outcome.exited 1⟩ := by
  rw [main_recv_ok env M hs hb ha hM]
  simp only [hw, if_true]
  rfl

theorem main_success (env : Env) (M : List Byte)
    (hs : 0 ≤ env.socketRet) (hb : 0 ≤ env.bindRet) (ha : 0 ≤ env.acceptRet)
    (hM : env.incoming = some M) (hw : 0 ≤ env.sendRet) :
    main env = ⟨traceToSend env M ++ [Event.close env.acceptRet, Event.close env.socketRet],
      bufferOf M, Outcome.exited 0⟩ := by
  rw [main_recv_ok env M hs hb ha hM]
  have h : ¬ env.sendRet < 0 := by omega
  simp only [h, if_false]
  rfl

/-- Every run has one of six shapes, one per place where the program can stop. -/
theorem main_shape (env : Env) :
    (env.socketRet < 0 ∧
      main env = ⟨[Event.socket env.socketRet, Event.perror "ERROR opening socket"],
        List.ofFn env.garbage, Outcome.exited 1⟩)
    ∨ (0 ≤ env.socketRet ∧ env.bindRet < 0 ∧
      main env = ⟨[Event.socket env.socketRet, Event.bind env.socketRet PORT env.bindRet,
          Event.perror "ERROR on binding"], List.ofFn env.garbage, Outcome.exited 1⟩)
    ∨ (0 ≤ env.socketRet ∧ 0 ≤ env.bindRet ∧ env.acceptRet < 0 ∧
      main env = ⟨[Event.socket env.socketRet, Event.bind env.socketRet PORT env.bindRet,
          Event.listen env.socketRet BACKLOG env.listenRet,
          Event.accept env.socketRet env.acceptRet,
          Event.perror "ERROR on accept"], List.ofFn env.garbage, Outcome.exited 1⟩)
    ∨ (0 ≤ env.socketRet ∧ 0 ≤ env.bindRet ∧ 0 ≤ env.acceptRet ∧ env.incoming = none ∧
      main env = ⟨[Event.socket env.socketRet, Event.bind env.socketRet PORT env.bindRet,
          Event.listen env.socketRet BACKLOG env.listenRet,
          Event.accept env.socketRet env.acceptRet,
          Event.recv env.acceptRet RECVLEN (-1) [],
          Event.perror "ERROR reading from socket"],
        List.replicate BUFSIZE 0, Outcome.exited 1⟩)
    ∨ (∃ M, 0 ≤ env.socketRet ∧ 0 ≤ env.bindRet ∧ 0 ≤ env.acceptRet ∧
      env.incoming = some M ∧ env.sendRet < 0 ∧
      main env = ⟨traceToSend env M ++ [Event.perror "ERROR writing to socket"],
        bufferOf M, Outcome.exited 1⟩)
    ∨ (∃ M, 0 ≤ env.socketRet ∧ 0 ≤ env.bindRet ∧ 0 ≤ env.acceptRet ∧
      env.incoming = some M ∧ 0 ≤ env.sendRet ∧
      main env = ⟨traceToSend env M
          ++ [Event.close env.acceptRet, Event.close env.socketRet],
        bufferOf M, Outcome.exited 0⟩) := by
  by_cases hs : env.socketRet < 0
  · exact Or.inl ⟨hs, main_socket_fail env hs⟩
  by_cases hb : env.bindRet < 0
  · exact Or.inr (Or.inl ⟨by omega, hb, main_bind_fail env (by omega) hb⟩)
  by_cases ha : env.acceptRet < 0
  · exact Or.inr (Or.inr (Or.inl
      ⟨by omega, by omega, ha, main_accept_fail env (by omega) (by omega) ha⟩))
  cases hM : env.incoming with
  | none =>
    exact Or.inr (Or.inr (Or.inr (Or.inl ⟨by omega, by omega, by omega, rfl,
      main_recv_fail env (by omega) (by omega) (by omega) hM⟩)))
  | some M =>
    by_cases hw : env.sendRet < 0
    · exact Or.inr (Or.inr (Or.inr (Or.inr (Or.inl ⟨M, by omega, by omega, by omega, rfl,
        hw, main_send_fail env M (by omega) (by omega) (by omega) hM hw⟩))))
    · exact Or.inr (Or.inr (Or.inr (Or.inr (Or.inr ⟨M, by omega, by omega, by omega, rfl,
        by omega, main_success env M (by omega) (by omega) (by omega) hM (by omega)⟩))))

/-- A `send` event of a run carries the program's fixed arguments. -/
theorem send_mem_trace (env : Env) (fd ret : Int) (payload : List Byte)
    (h : Event.send fd payload ret ∈ (main env).trace) :
    fd = env.acceptRet ∧ payload = sendPayload replyLiteral SENDLEN ∧ ret = env.sendRet := by
  rcases main_shape env with ⟨_, h1⟩ | ⟨_, _, h1⟩ | ⟨_, _, _, h1⟩ | ⟨_, _, _, _, h1⟩
    | ⟨M, _, _, _, _, _, h1⟩ | ⟨M, _, _, _, _, _, h1⟩ <;>
  · rw [h1] at h
    simp [traceToSend] at h
    try exact h

theorem transmitted_traceToSend (env : Env) (M : List Byte) (rest : List Event)
    (hrest : ∀ e ∈ rest, isSend e = false) :
    transmitted (traceToSend env M ++ rest)
      = if env.sendRet < 0 then []
        else (sendPayload replyLiteral SENDLEN).take env.sendRet.toNat := by
  have hr : transmitted rest = [] := by
    unfold transmitted
    rw [List.flatMap_eq_nil_iff]
    intro e he
    have := hrest e he
    cases e <;> simp_all [isSend]
  have : transmitted (traceToSend env M ++ rest)
      = transmitted (traceToSend env M) ++ transmitted rest := by
    unfold transmitted
    rw [List.flatMap_append]
  rw [this, hr, List.append_nil]
  simp [transmitted, traceToSend, List.flatMap_cons]

theorem stdout_traceToSend (env : Env) (M : List Byte) (rest : List Event)
    (hrest : ∀ e ∈ rest, isSocketOp e = true ∨ isPerror e = true) :
    stdout (traceToSend env M ++ rest)
      = printfPrefix ++ (M.take RECVLEN).takeWhile (fun b => b ≠ 0) ++ asciiBytes "\n" := by
  have hr : stdout rest = [] := by
    unfold stdout
    rw [List.flatMap_eq_nil_iff]
    intro e he
    have := hrest e he
    cases e <;> simp_all [isSocketOp, isPerror]
  have : stdout (traceToSend env M ++ rest)
      = stdout (traceToSend env M) ++ stdout rest := by
    unfold stdout
    rw [List.flatMap_append]
  rw [this, hr, List.append_nil]
  simp [stdout, traceToSend, List.flatMap_cons]

/-- A run that ends with exit code 0 has the fully successful shape. -/
theorem main_exit_zero (env : Env) (h0 : (main env).outcome = Outcome.exited 0) :
    ∃ M, 0 ≤ env.socketRet ∧ 0 ≤ env.bindRet ∧ 0 ≤ env.acceptRet ∧
      env.incoming = some M ∧ 0 ≤ env.sendRet ∧
      main env = ⟨traceToSend env M
          ++ [Event.close env.acceptRet, Event.close env.socketRet],
        bufferOf M, Outcome.exited 0⟩ := by
  rcases main_shape env with ⟨_, h1⟩ | ⟨_, _, h1⟩ | ⟨_, _, _, h1⟩ | ⟨_, _, _, _, h1⟩
    | ⟨M, _, _, _, _, _, h1⟩ | h
  · rw [h1] at h0; simp at h0
  · rw [h1] at h0; simp at h0
  · rw [h1] at h0; simp at h0
  · rw [h1] at h0; simp at h0
  · rw [h1] at h0; simp at h0
  · exact h

/-- Once `accept` has succeeded and `recv` delivers `M`, the run reaches `send`; what
follows is either the error report of `send` or the two `close` calls. -/
theorem main_reaches_send (env : Env) (M : List Byte)
    (hs : 0 ≤ env.socketRet) (hb : 0 ≤ env.bindRet) (ha : 0 ≤ env.acceptRet)
    (hM : env.incoming = some M) :
    (main env).buffer = bufferOf M ∧
      ((env.sendRet < 0 ∧ (main env).outcome = Outcome.exited 1 ∧
          (main env).trace = traceToSend env M ++ [Event.perror "ERROR writing to socket"])
        ∨ (0 ≤ env.sendRet ∧ (main env).outcome = Outcome.exited 0 ∧
          (main env).trace
            = traceToSend env M ++ [Event.close env.acceptRet, Event.close env.socketRet])) := by
  by_cases hw : env.sendRet < 0
  · rw [main_send_fail env M hs hb ha hM hw]
    exact ⟨rfl, Or.inl ⟨hw, rfl, rfl⟩⟩
  · rw [main_success env M hs hb ha hM (by omega)]
    exact ⟨rfl, Or.inr ⟨by omega, rfl, rfl⟩⟩

theorem take_min_length (M : List Byte) (n : Nat) : M.take (min M.length n) = M.take n := by
  by_cases h : M.length ≤ n
  · rw [Nat.min_eq_left h, List.take_of_length_le h, List.take_of_length_le (Nat.le_refl _)]
  · rw [Nat.min_eq_right (by omega)]

theorem bufferOf_take (M : List Byte) :
    (bufferOf M).take (M.take RECVLEN).length = M.take RECVLEN := by
  unfold bufferOf
  rw [List.take_left]

theorem takeWhile_nonzero_self (d : List Byte) (h : (0 : Byte) ∉ d) :
    d.takeWhile (fun b => b ≠ 0) = d := by
  rw [List.takeWhile_eq_self_iff]
  intro x hx
  have : x ≠ 0 := fun h0 => h (h0 ▸ hx)
  simpa using this

/-- In a list `A ++ s :: rest` whose part `A` holds no `send`, everything in `A` comes
before any occurrence of a `send`. -/
theorem prefix_before_send (A rest pre post : List Event) (s y : Event)
    (hA : ∀ e ∈ A, isSend e = false) (hy : isSend y = true)
    (h : pre ++ y :: post = A ++ s :: rest) : ∀ e ∈ A, e ∈ pre := by
  rcases List.append_eq_append_iff.mp h with ⟨a, hA', ha⟩ | ⟨c, hpre, _⟩
  · cases a with
    | nil =>
      intro e he
      rw [List.append_nil] at hA'
      rw [← hA']
      exact he
    | cons a0 a =>
      have hy0 : y = a0 := by
        simp only [List.cons_append, List.cons.injEq] at ha
        exact ha.1
      have hmem : a0 ∈ A := by
        rw [hA']
        simp
      have := hA a0 hmem
      rw [← hy0, hy] at this
      exact absurd this (by decide)
  · intro e he
    rw [hpre]
    exact List.mem_append_left _ he

/-! ## The claims -/

/-- C1: the exit code is 1 exactly when some checked call (socket, bind, accept, recv,
send) returns a negative value after all earlier checked calls succeeded, and 0
exactly when all five succeed; no other ending occurs, and the value returned by
listen has no influence on the exit code. -/
theorem main_exit_code (env : Env) :
    ((main env).outcome = Outcome.exited 1 ↔
      (env.socketRet < 0
        ∨ (0 ≤ env.socketRet ∧ env.bindRet < 0)
        ∨ (0 ≤ env.socketRet ∧ 0 ≤ env.bindRet ∧ env.acceptRet < 0)
        ∨ (0 ≤ env.socketRet ∧ 0 ≤ env.bindRet ∧ 0 ≤ env.acceptRet ∧ recvRet env < 0)
        ∨ (0 ≤ env.socketRet ∧ 0 ≤ env.bindRet ∧ 0 ≤ env.acceptRet ∧ 0 ≤ recvRet env
            ∧ env.sendRet < 0)))
    ∧ ((main env).outcome = Outcome.exited 0 ↔
      (0 ≤ env.socketRet ∧ 0 ≤ env.bindRet ∧ 0 ≤ env.acceptRet ∧ 0 ≤ recvRet env
        ∧ 0 ≤ env.sendRet))
    ∧ ((main env).outcome = Outcome.exited 1 ∨ (main env).outcome = Outcome.exited 0)
    ∧ (∀ l : Int, (main { env with listenRet := l }).outcome = (main env).outcome) := by
  refine ⟨?_, ?_, ?_, ?_⟩
  · rw [main_outcome]
    split_ifs <;> simp <;> omega
  · rw [main_outcome]
    split_ifs <;> simp <;> omega
  · rw [main_outcome]
    split_ifs <;> simp
  · intro l
    rw [main_outcome, main_outcome]
    rfl

/-- C2: whenever a run reaches the send step, the payload handed to send is exactly the
18 bytes of the text "I got your message"; the requested length 18 is the length of
the text, the literal is 19 bytes long with its terminator, the literal is the payload
followed by NUL, and the payload holds no NUL, whatever the client sent. -/
theorem send_payload_is_whole_text (env : Env) (fd ret : Int) (payload : List Byte)
    (h : Event.send fd payload ret ∈ (main env).trace) :
    payload = asciiBytes replyText ∧ payload.length = 18
      ∧ SENDLEN = replyText.length ∧ replyLiteral.length = 19
      ∧ replyLiteral = payload ++ [0] ∧ (0 : Byte) ∉ payload := by
  obtain ⟨_, hp, _⟩ := send_mem_trace env fd ret payload h
  subst hp
  decide

theorem send_payload_is_whole_text_witness :
    Event.send 4 (asciiBytes replyText) 18 ∈ (main (okEnv (asciiBytes "hello"))).trace
      ∧ (asciiBytes replyText = asciiBytes replyText ∧ (asciiBytes replyText).length = 18
        ∧ SENDLEN = replyText.length ∧ replyLiteral.length = 19
        ∧ replyLiteral = asciiBytes replyText ++ [0] ∧ (0 : Byte) ∉ asciiBytes replyText) :=
  ⟨by decide, send_payload_is_whole_text (okEnv (asciiBytes "hello")) 4 18
    (asciiBytes replyText) (by decide)⟩

/-- C3 as stated fails: in the fully successful run on the message "hello" the text is
18 characters long, not 19, and the bytes put on the wire are not the text with its
last character dropped: they end with the letter e. -/
theorem reply_truncation_counterexample :
    (main (okEnv (asciiBytes "hello"))).outcome = Outcome.exited 0
      ∧ ¬ (replyText.length = 19
          ∧ transmitted (main (okEnv (asciiBytes "hello"))).trace
              = (asciiBytes replyText).dropLast)
      ∧ replyText.length = 18
      ∧ (transmitted (main (okEnv (asciiBytes "hello"))).trace).getLast?
          = some ('e'.toNat.toUInt8) := by
  decide

/-- C3 amended: after any exchange that exits 0, the single send was handed the whole
text "I got your message", which is 18 characters long and ends with the letter e;
when send reports all 18 bytes written, the bytes on the wire are the whole text, so
nothing but the NUL terminator of the literal is left out. -/
theorem reply_is_whole_text (env : Env) (h0 : (main env).outcome = Outcome.exited 0) :
    (main env).trace.filter isSend
        = [Event.send env.acceptRet (asciiBytes replyText) env.sendRet]
      ∧ replyText.length = 18
      ∧ (asciiBytes replyText).getLast? = some ('e'.toNat.toUInt8)
      ∧ replyLiteral = asciiBytes replyText ++ [0]
      ∧ (env.sendRet = 18 → transmitted (main env).trace = asciiBytes replyText) := by
  have hp : sendPayload replyLiteral SENDLEN = asciiBytes replyText := by decide
  obtain ⟨M, _, _, _, _, hw, h1⟩ := main_exit_zero env h0
  rw [h1]
  refine ⟨?_, by decide, by decide, by decide, ?_⟩
  · simp [traceToSend, isSend, hp]
  · intro h18
    show transmitted (traceToSend env M ++ _) = _
    rw [transmitted_traceToSend env M _ (by simp [isSend]), hp, h18]
    decide

theorem reply_is_whole_text_witness :
    (main (okEnv (asciiBytes "hello"))).outcome = Outcome.exited 0
      ∧ ((main (okEnv (asciiBytes "hello"))).trace.filter isSend
          = [Event.send (okEnv (asciiBytes "hello")).acceptRet (asciiBytes replyText)
              (okEnv (asciiBytes "hello")).sendRet]
        ∧ replyText.length = 18
        ∧ (asciiBytes replyText).getLast? = some ('e'.toNat.toUInt8)
        ∧ replyLiteral = asciiBytes replyText ++ [0]
        ∧ ((okEnv (asciiBytes "hello")).sendRet = 18 →
            transmitted (main (okEnv (asciiBytes "hello"))).trace = asciiBytes replyText)) :=
  ⟨by decide, reply_is_whole_text (okEnv (asciiBytes "hello")) (by decide)⟩

/-- C4: when the calls before recv succeed and the payload M is available to the single
recv, the bytes stored are the first min(|M|, 255) bytes of M and the call returns
their number; for |M| ≤ 255 content and length are those of M, for |M| > 255 exactly
the first 255 bytes are taken, and in either case no read error is reported: the run
goes on to print and to send. -/
theorem recv_stores_first_bytes (env : Env) (M : List Byte)
    (hs : 0 ≤ env.socketRet) (hb : 0 ≤ env.bindRet) (ha : 0 ≤ env.acceptRet)
    (hM : env.incoming = some M) :
    (main env).trace.filter isRecv
        = [Event.recv env.acceptRet 255 ((min M.length 255 : Nat) : Int)
            (M.take (min M.length 255))]
      ∧ (main env).buffer.take (min M.length 255) = M.take (min M.length 255)
      ∧ (M.length ≤ 255 →
          (main env).trace.filter isRecv = [Event.recv env.acceptRet 255 (M.length : Int) M]
            ∧ (main env).buffer.take M.length = M)
      ∧ (255 < M.length →
          (main env).trace.filter isRecv
              = [Event.recv env.acceptRet 255 255 (M.take 255)]
            ∧ (main env).buffer.take 255 = M.take 255)
      ∧ Event.perror "ERROR reading from socket" ∉ (main env).trace
      ∧ (∃ out, Event.printf out ∈ (main env).trace)
      ∧ (∃ payload, Event.send env.acceptRet payload env.sendRet ∈ (main env).trace) := by
  obtain ⟨hbuf, htr⟩ := main_reaches_send env M hs hb ha hM
  have hlen : (M.take RECVLEN).length = min M.length 255 := by
    rw [List.length_take, Nat.min_comm]
    rfl
  have htake : M.take (min M.length 255) = M.take RECVLEN := take_min_length M 255
  have hfilter : (main env).trace.filter isRecv
      = [Event.recv env.acceptRet 255 ((min M.length 255 : Nat) : Int)
          (M.take (min M.length 255))] := by
    rw [htake, ← hlen]
    rcases htr with ⟨_, _, h⟩ | ⟨_, _, h⟩ <;>
    · rw [h]
      simp [traceToSend, isRecv, RECVLEN]
  have hstored : (main env).buffer.take (min M.length 255) = M.take (min M.length 255) := by
    rw [hbuf, htake, ← hlen]
    exact bufferOf_take M
  refine ⟨hfilter, hstored, ?_, ?_, ?_, ?_, ?_⟩
  · intro hle
    have h1 : min M.length 255 = M.length := Nat.min_eq_left hle
    rw [h1, List.take_of_length_le (Nat.le_refl _)] at hfilter hstored
    exact ⟨hfilter, hstored⟩
  · intro hgt
    have h1 : min M.length 255 = 255 := Nat.min_eq_right (by omega)
    rw [h1] at hfilter hstored
    exact ⟨hfilter, hstored⟩
  · rcases htr with ⟨_, _, h⟩ | ⟨_, _, h⟩ <;>
    · rw [h]
      simp [traceToSend]
  · rcases htr with ⟨_, _, h⟩ | ⟨_, _, h⟩ <;>
    · rw [h]
      exact ⟨printfPrefix ++ (M.take RECVLEN).takeWhile (fun b => b ≠ 0) ++ asciiBytes "\n",
        by simp [traceToSend]⟩
  · rcases htr with ⟨_, _, h⟩ | ⟨_, _, h⟩ <;>
    · rw [h]
      exact ⟨sendPayload replyLiteral SENDLEN, by simp [traceToSend]⟩

theorem recv_stores_first_bytes_witness :
    (0 ≤ (okEnv (List.replicate 300 0x41)).socketRet
      ∧ 0 ≤ (okEnv (List.replicate 300 0x41)).bindRet
      ∧ 0 ≤ (okEnv (List.replicate 300 0x41)).acceptRet
      ∧ (okEnv (List.replicate 300 0x41)).incoming = some (List.replicate 300 0x41))
    ∧ (main (okEnv (List.replicate 300 0x41))).trace.filter isRecv
        = [Event.recv 4 255 ((min (List.replicate 300 (0x41 : Byte)).length 255 : Nat) : Int)
            ((List.replicate 300 0x41).take (min (List.replicate 300 (0x41 : Byte)).length 255))] :=
  ⟨⟨by decide, by decide, by decide, rfl⟩,
    (recv_stores_first_bytes (okEnv (List.replicate 300 0x41)) (List.replicate 300 0x41)
      (by decide) (by decide) (by decide) rfl).1⟩

/-- C5: when the calls before recv succeed and recv returns 0 bytes, no read error is
reported; the program prints "Message from client: " followed directly by the
newline, hands the 18-byte reply to send, and exits 0 provided send does not fail. -/
theorem recv_zero_bytes (env : Env)
    (hs : 0 ≤ env.socketRet) (hb : 0 ≤ env.bindRet) (ha : 0 ≤ env.acceptRet)
    (hM : env.incoming = some []) :
    Event.recv env.acceptRet 255 0 [] ∈ (main env).trace
      ∧ Event.perror "ERROR reading from socket" ∉ (main env).trace
      ∧ stdout (main env).trace = asciiBytes "Message from client: \n"
      ∧ Event.send env.acceptRet (asciiBytes replyText) env.sendRet ∈ (main env).trace
      ∧ (asciiBytes replyText).length = 18
      ∧ (0 ≤ env.sendRet → (main env).outcome = Outcome.exited 0) := by
  obtain ⟨_, htr⟩ := main_reaches_send env [] hs hb ha hM
  have hp : sendPayload replyLiteral SENDLEN = asciiBytes replyText := by decide
  have hout : printfPrefix ++ (([] : List Byte).take RECVLEN).takeWhile (fun b => b ≠ 0)
      ++ asciiBytes "\n" = asciiBytes "Message from client: \n" := by decide
  rcases htr with ⟨hw, hout1, h⟩ | ⟨hw, hout0, h⟩
  · rw [h]
    refine ⟨by simp [traceToSend, RECVLEN], by simp [traceToSend], ?_,
      by simp [traceToSend, hp], by decide, fun h0 => absurd hw (by omega)⟩
    rw [stdout_traceToSend env [] _ (by simp [isPerror]), hout]
  · rw [h]
    refine ⟨by simp [traceToSend, RECVLEN], by simp [traceToSend], ?_,
      by simp [traceToSend, hp], by decide, fun _ => hout0⟩
    rw [stdout_traceToSend env [] _ (by simp [isSocketOp]), hout]

theorem recv_zero_bytes_witness :
    (0 ≤ (okEnv []).socketRet ∧ 0 ≤ (okEnv []).bindRet ∧ 0 ≤ (okEnv []).acceptRet
      ∧ (okEnv []).incoming = some [])
    ∧ (Event.recv (okEnv []).acceptRet 255 0 [] ∈ (main (okEnv [])).trace
      ∧ Event.perror "ERROR reading from socket" ∉ (main (okEnv [])).trace
      ∧ stdout (main (okEnv [])).trace = asciiBytes "Message from client: \n"
      ∧ Event.send (okEnv []).acceptRet (asciiBytes replyText) (okEnv []).sendRet
          ∈ (main (okEnv [])).trace
      ∧ (asciiBytes replyText).length = 18
      ∧ (0 ≤ (okEnv []).sendRet → (main (okEnv [])).outcome = Outcome.exited 0)) :=
  ⟨⟨by decide, by decide, by decide, rfl⟩,
    recv_zero_bytes (okEnv []) (by decide) (by decide) (by decide) rfl⟩

/-- C6: when every call succeeds and the received payload M has at most 255 bytes, none
of them zero, standard output is exactly "Message from client: " then M then a
newline; the print is followed at once by the send of the 18-byte reply and the two
closes, and the exit code is 0.  For M = "hello" the output is the line
"Message from client: hello". -/
theorem prints_message_then_replies (env : Env) (M : List Byte)
    (hs : 0 ≤ env.socketRet) (hb : 0 ≤ env.bindRet) (ha : 0 ≤ env.acceptRet)
    (hM : env.incoming = some M) (hw : 0 ≤ env.sendRet)
    (hlen : M.length ≤ 255) (hz : (0 : Byte) ∉ M) :
    stdout (main env).trace = asciiBytes "Message from client: " ++ M ++ asciiBytes "\n"
      ∧ (∃ pre, (main env).trace = pre ++
          [Event.printf (asciiBytes "Message from client: " ++ M ++ asciiBytes "\n"),
            Event.send env.acceptRet (asciiBytes replyText) env.sendRet,
            Event.close env.acceptRet, Event.close env.socketRet])
      ∧ (asciiBytes replyText).length = 18
      ∧ (main env).outcome = Outcome.exited 0
      ∧ (M = asciiBytes "hello" →
          stdout (main env).trace = asciiBytes "Message from client: hello\n") := by
  have hp : sendPayload replyLiteral SENDLEN = asciiBytes replyText := by decide
  have hmsg : (M.take RECVLEN).takeWhile (fun b => b ≠ 0) = M := by
    have ht : M.take RECVLEN = M := List.take_of_length_le hlen
    rw [ht, takeWhile_nonzero_self M hz]
  have hstd : stdout (main env).trace
      = asciiBytes "Message from client: " ++ M ++ asciiBytes "\n" := by
    rw [main_success env M hs hb ha hM hw]
    show stdout (traceToSend env M ++ _) = _
    rw [stdout_traceToSend env M _ (by simp [isSocketOp]), hmsg]
    rfl
  refine ⟨hstd, ?_, by decide, ?_, ?_⟩
  · rw [main_success env M hs hb ha hM hw]
    refine ⟨[Event.socket env.socketRet, Event.bind env.socketRet PORT env.bindRet,
      Event.listen env.socketRet BACKLOG env.listenRet,
      Event.accept env.socketRet env.acceptRet,
      Event.recv env.acceptRet RECVLEN ((M.take RECVLEN).length : Int) (M.take RECVLEN)], ?_⟩
    simp only [traceToSend, hmsg, hp, List.cons_append, List.nil_append]
    rfl
  · rw [main_success env M hs hb ha hM hw]
  · intro hM5
    rw [hstd, hM5]
    decide

theorem prints_message_then_replies_witness :
    (0 ≤ (okEnv (asciiBytes "hello")).socketRet ∧ 0 ≤ (okEnv (asciiBytes "hello")).bindRet
      ∧ 0 ≤ (okEnv (asciiBytes "hello")).acceptRet
      ∧ (okEnv (asciiBytes "hello")).incoming = some (asciiBytes "hello")
      ∧ 0 ≤ (okEnv (asciiBytes "hello")).sendRet
      ∧ (asciiBytes "hello").length ≤ 255 ∧ (0 : Byte) ∉ asciiBytes "hello")
    ∧ stdout (main (okEnv (asciiBytes "hello"))).trace
        = asciiBytes "Message from client: hello\n" :=
  ⟨⟨by decide, by decide, by decide, rfl, by decide, by decide, by decide⟩,
    (prints_message_then_replies (okEnv (asciiBytes "hello")) (asciiBytes "hello")
      (by decide) (by decide) (by decide) rfl (by decide) (by decide) (by decide)).2.2.2.2 rfl⟩

/-- C7: every run contains at most one accept, at most one recv and at most one send,
and wherever a send occurs in the trace a recv on the same descriptor occurs before
it; when every checked call succeeds the trace is exactly socket, bind, listen,
accept, recv, print, send, close of the connection, close of the listener, and the
exit code is 0. -/
theorem single_exchange_trace (env : Env) :
    ((main env).trace.filter isAccept).length ≤ 1
      ∧ ((main env).trace.filter isRecv).length ≤ 1
      ∧ ((main env).trace.filter isSend).length ≤ 1
      ∧ (∀ pre post fd payload ret,
          (main env).trace = pre ++ Event.send fd payload ret :: post →
            ∃ len n stored, Event.recv fd len n stored ∈ pre)
      ∧ (∀ M, 0 ≤ env.socketRet → 0 ≤ env.bindRet → 0 ≤ env.acceptRet →
          env.incoming = some M → 0 ≤ env.sendRet →
          (main env).trace =
              [Event.socket env.socketRet, Event.bind env.socketRet 8000 env.bindRet,
                Event.listen env.socketRet 5 env.listenRet,
                Event.accept env.socketRet env.acceptRet,
                Event.recv env.acceptRet 255 ((M.take 255).length : Int) (M.take 255),
                Event.printf (asciiBytes "Message from client: "
                  ++ (M.take 255).takeWhile (fun b => b ≠ 0) ++ asciiBytes "\n"),
                Event.send env.acceptRet (asciiBytes replyText) env.sendRet,
                Event.close env.acceptRet, Event.close env.socketRet]
            ∧ (main env).outcome = Outcome.exited 0) := by
  have hp : sendPayload replyLiteral SENDLEN = asciiBytes replyText := by decide
  refine ⟨?_, ?_, ?_, ?_, ?_⟩
  · rcases main_shape env with ⟨_, h1⟩ | ⟨_, _, h1⟩ | ⟨_, _, _, h1⟩ | ⟨_, _, _, _, h1⟩
      | ⟨M, _, _, _, _, _, h1⟩ | ⟨M, _, _, _, _, _, h1⟩ <;>
    · rw [h1]
      simp [traceToSend, isAccept]
  · rcases main_shape env with ⟨_, h1⟩ | ⟨_, _, h1⟩ | ⟨_, _, _, h1⟩ | ⟨_, _, _, _, h1⟩
      | ⟨M, _, _, _, _, _, h1⟩ | ⟨M, _, _, _, _, _, h1⟩ <;>
    · rw [h1]
      simp [traceToSend, isRecv]
  · rcases main_shape env with ⟨_, h1⟩ | ⟨_, _, h1⟩ | ⟨_, _, _, h1⟩ | ⟨_, _, _, _, h1⟩
      | ⟨M, _, _, _, _, _, h1⟩ | ⟨M, _, _, _, _, _, h1⟩ <;>
    · rw [h1]
      simp [traceToSend, isSend]
  · intro pre post fd payload ret h
    have hmem : Event.send fd payload ret ∈ (main env).trace := by
      rw [h]
      simp
    obtain ⟨hfd, _, _⟩ := send_mem_trace env fd ret payload hmem
    have key : ∀ (M : List Byte) (rest : List Event),
        (main env).trace = traceToSend env M ++ rest →
        ∃ len n stored, Event.recv fd len n stored ∈ pre := by
      intro M rest htr
      rw [htr] at h
      have := prefix_before_send
        [Event.socket env.socketRet, Event.bind env.socketRet PORT env.bindRet,
          Event.listen env.socketRet BACKLOG env.listenRet,
          Event.accept env.socketRet env.acceptRet,
          Event.recv env.acceptRet RECVLEN ((M.take RECVLEN).length : Int) (M.take RECVLEN),
          Event.printf (printfPrefix ++ (M.take RECVLEN).takeWhile (fun b => b ≠ 0)
            ++ asciiBytes "\n")]
        rest pre post
        (Event.send env.acceptRet (sendPayload replyLiteral SENDLEN) env.sendRet)
        (Event.send fd payload ret) (by simp [isSend]) rfl h.symm
        (Event.recv env.acceptRet RECVLEN ((M.take RECVLEN).length : Int) (M.take RECVLEN))
        (by simp)
      rw [hfd]
      exact ⟨_, _, _, this⟩
    rcases main_shape env with ⟨_, h1⟩ | ⟨_, _, h1⟩ | ⟨_, _, _, h1⟩ | ⟨_, _, _, _, h1⟩
      | ⟨M, _, _, _, _, _, h1⟩ | ⟨M, _, _, _, _, _, h1⟩
    · rw [h1] at hmem; simp at hmem
    · rw [h1] at hmem; simp at hmem
    · rw [h1] at hmem; simp at hmem
    · rw [h1] at hmem; simp at hmem
    · exact key M _ (by rw [h1])
    · exact key M _ (by rw [h1])
  · intro M hs hb ha hM hw
    rw [main_success env M hs hb ha hM hw]
    refine ⟨?_, rfl⟩
    simp only [traceToSend, hp, List.cons_append, List.nil_append]
    rfl

theorem single_exchange_trace_witness :
    (0 ≤ (okEnv (asciiBytes "hello")).socketRet ∧ 0 ≤ (okEnv (asciiBytes "hello")).bindRet
      ∧ 0 ≤ (okEnv (asciiBytes "hello")).acceptRet
      ∧ (okEnv (asciiBytes "hello")).incoming = some (asciiBytes "hello")
      ∧ 0 ≤ (okEnv (asciiBytes "hello")).sendRet)
    ∧ ((main (okEnv (asciiBytes "hello"))).trace =
        [Event.socket 3, Event.bind 3 8000 0, Event.listen 3 5 0, Event.accept 3 4,
          Event.recv 4 255 5 (asciiBytes "hello"),
          Event.printf (asciiBytes "Message from client: hello\n"),
          Event.send 4 (asciiBytes replyText) 18, Event.close 4, Event.close 3]
      ∧ (main (okEnv (asciiBytes "hello"))).outcome = Outcome.exited 0) :=
  ⟨⟨by decide, by decide, by decide, rfl, by decide⟩,
    (single_exchange_trace (okEnv (asciiBytes "hello"))).2.2.2.2 (asciiBytes "hello")
      (by decide) (by decide) (by decide) rfl (by decide)⟩

/-- C8: a run that exits with code 1 ends with the failed checked call followed only by
its error report, no earlier call having failed, and contains no close; a checked
call that returns a negative value occurs only in such runs; a bind
failure leaves the trace socket, bind, error report, so no listen, accept, recv or
send follows; a close occurs only in runs that exit 0, and those end with the close
of the connection followed by the close of the listener, with no close before. -/
theorem error_paths_stop (env : Env) :
    ((main env).outcome = Outcome.exited 1 →
        (∃ pre call msg, (main env).trace = pre ++ [call, Event.perror msg]
          ∧ isFailedCheck call = true ∧ ∀ e ∈ pre, isFailedCheck e = false)
        ∧ ∀ e ∈ (main env).trace, isClose e = false)
      ∧ (∀ e ∈ (main env).trace, isFailedCheck e = true →
          (main env).outcome = Outcome.exited 1)
      ∧ (0 ≤ env.socketRet → env.bindRet < 0 →
          (main env).trace = [Event.socket env.socketRet,
            Event.bind env.socketRet 8000 env.bindRet, Event.perror "ERROR on binding"]
          ∧ (main env).outcome = Outcome.exited 1)
      ∧ ((∃ e ∈ (main env).trace, isClose e = true) ↔ (main env).outcome = Outcome.exited 0)
      ∧ ((main env).outcome = Outcome.exited 0 →
          ∃ pre, (main env).trace
              = pre ++ [Event.close env.acceptRet, Event.close env.socketRet]
            ∧ ∀ e ∈ pre, isClose e = false) := by
  refine ⟨?_, ?_, ?_, ?_, ?_⟩
  rotate_left
  · rcases main_shape env with ⟨_, h⟩ | ⟨_, _, h⟩ | ⟨_, _, _, h⟩ | ⟨_, _, _, _, h⟩
      | ⟨M, _, _, _, _, _, h⟩ | ⟨M, hs, hb, ha, _, hw, h⟩
    · rw [h]; intro _ _ _; rfl
    · rw [h]; intro _ _ _; rfl
    · rw [h]; intro _ _ _; rfl
    · rw [h]; intro _ _ _; rfl
    · rw [h]; intro _ _ _; rfl
    · rw [h]
      intro e he hf
      exfalso
      simp only [traceToSend, List.cons_append, List.nil_append, List.mem_cons,
        List.mem_singleton, List.not_mem_nil, or_false] at he
      rcases he with he | he | he | he | he | he | he | he | he <;>
      · rw [he] at hf
        simp [isFailedCheck] at hf
        try omega
  rotate_right
  · intro h1
    rcases main_shape env with ⟨hs, h⟩ | ⟨hs, hb, h⟩ | ⟨hs, hb, ha, h⟩ | ⟨hs, hb, ha, _, h⟩
      | ⟨M, hs, hb, ha, _, hw, h⟩ | ⟨M, _, _, _, _, _, h⟩
    · rw [h]
      exact ⟨⟨[], _, _, rfl, by simp [isFailedCheck, hs], by simp⟩, by simp [isClose]⟩
    · rw [h]
      refine ⟨⟨[Event.socket env.socketRet], _, _, rfl, by simp [isFailedCheck, hb], ?_⟩,
        by simp [isClose]⟩
      simp [isFailedCheck]
      omega
    · rw [h]
      refine ⟨⟨[Event.socket env.socketRet, Event.bind env.socketRet PORT env.bindRet,
        Event.listen env.socketRet BACKLOG env.listenRet], _, _, rfl,
        by simp [isFailedCheck, ha], ?_⟩, by simp [isClose]⟩
      simp [isFailedCheck]
      omega
    · rw [h]
      refine ⟨⟨[Event.socket env.socketRet, Event.bind env.socketRet PORT env.bindRet,
        Event.listen env.socketRet BACKLOG env.listenRet,
        Event.accept env.socketRet env.acceptRet], _, _, rfl,
        by simp [isFailedCheck], ?_⟩, by simp [isClose]⟩
      simp [isFailedCheck]
      omega
    · rw [h]
      refine ⟨⟨[Event.socket env.socketRet, Event.bind env.socketRet PORT env.bindRet,
        Event.listen env.socketRet BACKLOG env.listenRet,
        Event.accept env.socketRet env.acceptRet,
        Event.recv env.acceptRet RECVLEN ((M.take RECVLEN).length : Int) (M.take RECVLEN),
        Event.printf (printfPrefix ++ (M.take RECVLEN).takeWhile (fun b => b ≠ 0)
          ++ asciiBytes "\n")], _, _, rfl,
        by simp [isFailedCheck, hw], ?_⟩, by simp [traceToSend, isClose]⟩
      simp [isFailedCheck]
      omega
    · rw [h] at h1
      simp at h1
  · intro hs hb
    rw [main_bind_fail env hs hb]
    exact ⟨rfl, rfl⟩
  · rcases main_shape env with ⟨_, h⟩ | ⟨_, _, h⟩ | ⟨_, _, _, h⟩ | ⟨_, _, _, _, h⟩
      | ⟨M, _, _, _, _, _, h⟩ | ⟨M, _, _, _, _, _, h⟩ <;>
    · rw [h]
      simp [traceToSend, isClose]
  · intro h0
    obtain ⟨M, _, _, _, _, _, h⟩ := main_exit_zero env h0
    rw [h]
    exact ⟨traceToSend env M, rfl, by simp [traceToSend, isClose]⟩

theorem error_paths_stop_witness :
    (0 ≤ bindFailEnv.socketRet ∧ bindFailEnv.bindRet < 0)
      ∧ ((main bindFailEnv).trace
          = [Event.socket 3, Event.bind 3 8000 (-1), Event.perror "ERROR on binding"]
        ∧ (main bindFailEnv).outcome = Outcome.exited 1) :=
  ⟨⟨by decide, by decide⟩, (error_paths_stop bindFailEnv).2.2.1 (by decide) (by decide)⟩

/-- C9 as stated fails: when every call succeeds and send returns 5, the run contains
exactly one send, exits 0, and has put only the 5 bytes "I got" of the 18-byte
payload on the wire. -/
theorem partial_send_counterexample :
    (main partialSendEnv).outcome = Outcome.exited 0
      ∧ ((main partialSendEnv).trace.filter isSend).length = 1
      ∧ transmitted (main partialSendEnv).trace = asciiBytes "I got"
      ∧ (transmitted (main partialSendEnv).trace).length < 18
      ∧ transmitted (main partialSendEnv).trace ≠ asciiBytes replyText := by
  decide

/-- C9 amended: the reply step is one send of the full 18-byte payload and is never
retried.  When the send returns k with 0 ≤ k ≤ 18 the run exits 0 having put exactly
the first k bytes of the payload on the wire, so the whole payload has been
transmitted exactly when k = 18; when the send fails the run exits 1 with nothing
transmitted. -/
theorem reply_is_single_send (env : Env) (M : List Byte)
    (hs : 0 ≤ env.socketRet) (hb : 0 ≤ env.bindRet) (ha : 0 ≤ env.acceptRet)
    (hM : env.incoming = some M) :
    (main env).trace.filter isSend
        = [Event.send env.acceptRet (asciiBytes replyText) env.sendRet]
      ∧ (asciiBytes replyText).length = 18
      ∧ (∀ k : Nat, env.sendRet = (k : Int) → k ≤ 18 →
          (main env).outcome = Outcome.exited 0
            ∧ transmitted (main env).trace = (asciiBytes replyText).take k
            ∧ (transmitted (main env).trace).length = k
            ∧ (transmitted (main env).trace = asciiBytes replyText ↔ k = 18))
      ∧ (env.sendRet < 0 →
          (main env).outcome = Outcome.exited 1 ∧ transmitted (main env).trace = []) := by
  have hp : sendPayload replyLiteral SENDLEN = asciiBytes replyText := by decide
  have hlen : (asciiBytes replyText).length = 18 := by decide
  obtain ⟨_, htr⟩ := main_reaches_send env M hs hb ha hM
  refine ⟨?_, hlen, ?_, ?_⟩
  · rcases htr with ⟨_, _, h⟩ | ⟨_, _, h⟩ <;>
    · rw [h]
      simp [traceToSend, isSend, hp]
  · intro k hk hk18
    rcases htr with ⟨hw, _, _⟩ | ⟨hw, hout, h⟩
    · omega
    · have ht : transmitted (main env).trace = (asciiBytes replyText).take k := by
        rw [h, transmitted_traceToSend env M _ (by simp [isSend]), hp, hk]
        simp
      have hl : ((asciiBytes replyText).take k).length = k := by
        rw [List.length_take, hlen]
        omega
      refine ⟨hout, ht, by rw [ht, hl], ?_⟩
      rw [ht]
      constructor
      · intro heq
        have := congrArg List.length heq
        rw [hl, hlen] at this
        exact this
      · intro h18
        rw [h18]
        exact List.take_of_length_le (by rw [hlen])
  · intro hneg
    rcases htr with ⟨_, hout, h⟩ | ⟨hw, _, _⟩
    · refine ⟨hout, ?_⟩
      rw [h, transmitted_traceToSend env M _ (by simp [isSend]), if_pos hneg]
    · omega

theorem reply_is_single_send_witness :
    (0 ≤ partialSendEnv.socketRet ∧ 0 ≤ partialSendEnv.bindRet
      ∧ 0 ≤ partialSendEnv.acceptRet
      ∧ partialSendEnv.incoming = some (asciiBytes "hello")
      ∧ partialSendEnv.sendRet = ((5 : Nat) : Int) ∧ 5 ≤ 18)
    ∧ ((main partialSendEnv).outcome = Outcome.exited 0
      ∧ transmitted (main partialSendEnv).trace = (asciiBytes replyText).take 5
      ∧ (transmitted (main partialSendEnv).trace).length = 5
      ∧ (transmitted (main partialSendEnv).trace = asciiBytes replyText ↔ 5 = 18)) :=
  ⟨⟨by decide, by decide, by decide, rfl, by decide, by decide⟩,
    (reply_is_single_send partialSendEnv (asciiBytes "hello")
      (by decide) (by decide) (by decide) rfl).2.2.1 5 (by decide) (by decide)⟩

/-- C10: when recv is reached and stores the n ≤ 255 bytes d (the first 255 bytes of the
available payload M) into the freshly zeroed 256-byte buffer, the buffer is d followed
by 256 − n zero bytes, so it has 256 bytes and byte 255 is 0; the read of the
buffer by the print never runs past its end; the text printed after "Message from
client: " is d up to, not including, its first zero byte, is at most 255 bytes long,
and is a strict prefix of d, and of M, whenever that one contains a zero byte. -/
theorem buffer_nul_terminated (env : Env) (M : List Byte)
    (hs : 0 ≤ env.socketRet) (hb : 0 ≤ env.bindRet) (ha : 0 ≤ env.acceptRet)
    (hM : env.incoming = some M) :
    (M.take 255).length ≤ 255
      ∧ (main env).buffer = M.take 255 ++ List.replicate (256 - (M.take 255).length) 0
      ∧ (main env).buffer.length = 256
      ∧ (main env).buffer[255]? = some 0
      ∧ (main env).outcome ≠ Outcome.undefinedBehaviour
      ∧ cString (main env).buffer = some ((M.take 255).takeWhile (fun b => b ≠ 0))
      ∧ stdout (main env).trace = asciiBytes "Message from client: "
          ++ (M.take 255).takeWhile (fun b => b ≠ 0) ++ asciiBytes "\n"
      ∧ ((M.take 255).takeWhile (fun b => b ≠ 0)).length ≤ 255
      ∧ ((0 : Byte) ∈ M.take 255 →
          (M.take 255).takeWhile (fun b => b ≠ 0) <+: M.take 255
            ∧ (M.take 255).takeWhile (fun b => b ≠ 0) ≠ M.take 255)
      ∧ ((0 : Byte) ∈ M →
          (M.take 255).takeWhile (fun b => b ≠ 0) <+: M
            ∧ (M.take 255).takeWhile (fun b => b ≠ 0) ≠ M) := by
  have hd : (M.take 255).length ≤ 255 := take_length_le M
  obtain ⟨hbuf, htr⟩ := main_reaches_send env M hs hb ha hM
  have hbuf' : (main env).buffer
      = M.take 255 ++ List.replicate (256 - (M.take 255).length) 0 := hbuf
  have hpre : (M.take 255).takeWhile (fun b => b ≠ 0) <+: M.take 255 :=
    List.takeWhile_prefix _
  have hne : (0 : Byte) ∈ M.take 255 →
      (M.take 255).takeWhile (fun b => b ≠ 0) ≠ M.take 255 := by
    intro h0 heq
    rw [List.takeWhile_eq_self_iff] at heq
    have := heq 0 h0
    simp at this
  refine ⟨hd, hbuf', ?_, ?_, ?_, ?_, ?_, ?_, ?_, ?_⟩
  · rw [hbuf', List.length_append, List.length_replicate]
    omega
  · rw [hbuf', List.getElem?_append_right hd, List.getElem?_replicate]
    rw [if_pos (by omega)]
  · rcases htr with ⟨_, h, _⟩ | ⟨_, h, _⟩ <;>
    · rw [h]
      simp
  · rw [hbuf]
    exact cString_after_recv M
  · rcases htr with ⟨_, _, h⟩ | ⟨_, _, h⟩
    · rw [h, stdout_traceToSend env M _ (by simp [isPerror])]
      rfl
    · rw [h, stdout_traceToSend env M _ (by simp [isSocketOp])]
      rfl
  · exact Nat.le_trans hpre.length_le hd
  · intro h0
    exact ⟨hpre, hne h0⟩
  · intro h0
    refine ⟨hpre.trans ( List.take_prefix _ _), ?_⟩
    intro heq
    have h1 : M.length ≤ (M.take 255).length := by
      have := hpre.length_le
      rw [heq] at this
      exact this
    have h2 : M.take 255 = M := List.take_of_length_le (by omega)
    rw [h2] at hne
    rw [h2] at heq
    exact hne h0 heq

theorem buffer_nul_terminated_witness :
    (0 ≤ (okEnv [0x68, 0x69, 0, 0x21]).socketRet ∧ 0 ≤ (okEnv [0x68, 0x69, 0, 0x21]).bindRet
      ∧ 0 ≤ (okEnv [0x68, 0x69, 0, 0x21]).acceptRet
      ∧ (okEnv [0x68, 0x69, 0, 0x21]).incoming = some [0x68, 0x69, 0, 0x21]
      ∧ (0 : Byte) ∈ [0x68, 0x69, 0, 0x21])
    ∧ (main (okEnv [0x68, 0x69, 0, 0x21])).buffer[255]? = some 0
    ∧ stdout (main (okEnv [0x68, 0x69, 0, 0x21])).trace = asciiBytes "Message from client: "
          ++ (List.take 255 [0x68, 0x69, 0, 0x21]).takeWhile (fun b => b ≠ 0)
          ++ asciiBytes "\n"
    ∧ ((List.take 255 [(0x68 : Byte), 0x69, 0, 0x21]).takeWhile (fun b => b ≠ 0)
          <+: [0x68, 0x69, 0, 0x21]
        ∧ (List.take 255 [(0x68 : Byte), 0x69, 0, 0x21]).takeWhile (fun b => b ≠ 0)
          ≠ [0x68, 0x69, 0, 0x21]) :=
  ⟨⟨by decide, by decide, by decide, rfl, by decide⟩,
    (buffer_nul_terminated (okEnv [0x68, 0x69, 0, 0x21]) [0x68, 0x69, 0, 0x21]
      (by decide) (by decide) (by decide) rfl).2.2.2.1,
    (buffer_nul_terminated (okEnv [0x68, 0x69, 0, 0x21]) [0x68, 0x69, 0, 0x21]
      (by decide) (by decide) (by decide) rfl).2.2.2.2.2.2.1,
    (buffer_nul_terminated (okEnv [0x68, 0x69, 0, 0x21]) [0x68, 0x69, 0, 0x21]
      (by decide) (by decide) (by decide) rfl).2.2.2.2.2.2.2.2.2 (by decide)⟩

end Server
